import Mathlib

/-!
Verification of the inventory-management core of the barcode-scanner backend
(`Scanner/app.py`): the barcode resolver, the add-or-update inventory routine
with its retry-on-lock loop, the MQTT notification step, and the order-placement
decrement used by the dashboard.  The Python code is shallowly embedded: the
inventory table is a list of rows, strings are Lean strings manipulated through
their character lists, the per-attempt storage outcome (commit / "database is
locked" / other error) is an oracle parameter, and `time.sleep(0.5)` back-offs
are counted.
-/

namespace Inventory

/-- Result action of `add_or_update_inventory`. -/
inductive Action where
  | added
  | updated
  | skipped
deriving DecidableEq, Repr

/-- One row of the `inventory` table: barcode, product name, quantity.
Quantities are Python integers, embedded as `Int`. -/
structure Row where
  barcode : String
  product_name : String
  quantity : Int
deriving DecidableEq, Repr

/-- Python `str.strip()`: drop whitespace from both ends. -/
def pyStrip (s : String) : String :=
  ⟨((s.data.dropWhile Char.isWhitespace).reverse.dropWhile Char.isWhitespace).reverse⟩

/-- The static `barcode_prefix_mapping` table from `Scanner/app.py`. -/
def barcode_prefix_mapping : List (String × String) :=
  [("71013487523", "Alex Silver"),
   ("71011154523", "Newport Silver"),
   ("71011153523", "Newport White and Pink"),
   ("71011156522", "Newport Copper"),
   ("71011155523", "Newport White and Gold"),
   ("71075750522", "Newport Gunmetal"),
   ("71014181553", "Newport Blue"),
   ("71011151522", "Newport Ebony and Gold"),
   ("110481", "Brighton Natural"),
   ("210477", "Silver Rose"),
   ("210889", "Classic Ebony Gold"),
   ("110649", "#430"),
   ("110128", "Masterpiece"),
   ("410204", "In God\x27s Care"),
   ("210923", "Dartmouth Blue"),
   ("210654", "Roseboro"),
   ("210921", "Dartmouth Bronze"),
   ("210953", "Kessens Bronze"),
   ("110411", "Nordon Pine"),
   ("110664", "#435"),
   ("210937", "Kessens Grey")]

/-- Barcode key extraction from `add_or_update_inventory` (lines 852-857):
`split('-')[0]` when the (stripped) code has length ≥ 14 and contains a hyphen,
else the first 11 characters when length ≥ 11, else the first 6 characters.
`split('-')[0]` is the text before the first hyphen. -/
def extractKey (b : String) : String :=
  if 14 ≤ b.data.length ∧ '-' ∈ b.data then
    ⟨b.data.takeWhile (fun c => c ≠ '-')⟩
  else if 11 ≤ b.data.length then ⟨b.data.take 11⟩
  else ⟨b.data.take 6⟩

/-- `barcode_prefix_mapping.get(barcode_prefix, 'Unknown')` (line 859). -/
def resolveName (b : String) : String :=
  ((barcode_prefix_mapping.lookup (extractKey b)).getD "Unknown")

/-- The claimed resolver casing, written from the specification text
("substring before the first hyphen if the length is ≥ 14 and the string
contains a hyphen; otherwise the first 11 characters if the length ≥ 11;
otherwise the first 6 characters, or the whole string if shorter than 6"). -/
def extractKeySpec (b : String) : String :=
  if 14 ≤ b.data.length ∧ '-' ∈ b.data then
    ⟨b.data.takeWhile (fun c => c ≠ '-')⟩
  else if 11 ≤ b.data.length then ⟨b.data.take 11⟩
  else if 6 ≤ b.data.length then ⟨b.data.take 6⟩
  else b

/-- The fixed list of internal device command strings (line 839). -/
def internalCommands : List String := ["Inventory Mode", "Exit and Save"]

/-- Update the first element satisfying `p` with `f`; returns the new list
together with the updated element, or `none` when nothing matches.  This is
`session.query(...).filter_by(...).first()` followed by an in-place mutation. -/
def updateFirst (p : Row → Bool) (f : Row → Row) : List Row → Option (List Row × Row)
  | [] => none
  | r :: rs =>
    if p r then some (f r :: rs, f r)
    else (updateFirst p f rs).map (fun x => (r :: x.1, x.2))

/-- Result of one (exception-free) pass of the add-or-update body:
the action, the mutated table, and the affected row (post-mutation). -/
structure CoreResult where
  action : Action
  store : List Row
  item : Row
deriving DecidableEq, Repr

/-- The read-modify-write body of `add_or_update_inventory` (lines 849-890):
strip, resolve, look up by barcode (increment quantity), else by product name
(increment quantity and overwrite barcode), else insert a fresh row with
quantity 1. -/
def addOrUpdateCore (store : List Row) (raw : String) : CoreResult :=
  let b := pyStrip raw
  let name := resolveName b
  match updateFirst (fun r => r.barcode == b)
      (fun r => { r with quantity := r.quantity + 1 }) store with
  | some (store', item) => ⟨.updated, store', item⟩
  | none =>
    match updateFirst (fun r => r.product_name == name)
        (fun r => { r with quantity := r.quantity + 1, barcode := b }) store with
    | some (store', item) => ⟨.updated, store', item⟩
    | none =>
      let item : Row := ⟨b, name, 1⟩
      ⟨.added, store ++ [item], item⟩

/-- `add_or_update_inventory` restricted to a single successful attempt:
sentinel check on the raw (unstripped) input, then the core body. -/
def add_or_update_inventory (store : List Row) (raw : String) : Action × List Row :=
  if raw ∈ internalCommands then (.skipped, store)
  else ((addOrUpdateCore store raw).action, (addOrUpdateCore store raw).store)

/-- Storage outcome of a single attempt of the retry loop: the commit
succeeds, raises a "database is locked" `SQLAlchemyError`, or raises some
other storage error. -/
inductive AttemptOutcome where
  | success
  | locked
  | dbError
deriving DecidableEq, Repr

/-- Overall outcome of `add_or_update_inventory`: the returned action, the
final `Exception(\x22Failed to update inventory after multiple attempts due to
database lock.\x22)` (contention), or the immediately re-raised storage error
(persistence). -/
inductive ScanOutcome where
  | done (a : Action)
  | contention
  | persistence
deriving DecidableEq, Repr

/-- The JSON event published to MQTT on success:
`{action, data: {barcode, product_name, quantity}}`. -/
structure MqttEvent where
  action : Action
  barcode : String
  product_name : String
  quantity : Int
deriving DecidableEq, Repr

/-- `publish_to_mqtt` (lines 80-87): publish the message; when the return
code is not `MQTT_ERR_SUCCESS` (0), log an error.  Returns the error-log
lines; nothing is raised. -/
def publishLogs (rc : Nat) : List String :=
  if rc = 0 then [] else ["Failed to publish MQTT message"]

/-- Number of retry attempts (`retry_count = 5`, line 836). -/
def retry_count : Nat := 5

/-- Fixed back-off between attempts (`delay = 0.5` seconds, line 837),
in milliseconds. -/
def retryDelayMs : Nat := 500

/-- Observable trace of one call of `add_or_update_inventory`: outcome,
final persisted table, count of `time.sleep(delay)` calls (each of the fixed
`retryDelayMs`), number of attempts started, MQTT events published, and
error-log lines from the publish step. -/
structure ScanRun where
  outcome : ScanOutcome
  store : List Row
  sleeps : Nat
  attempts : Nat
  events : List MqttEvent
  logs : List String
deriving DecidableEq, Repr

/-- The retry loop of `add_or_update_inventory` (lines 843-922), starting at
attempt index `i` with `fuel` attempts remaining.  A successful attempt
commits the core mutation and publishes to MQTT; a "database is locked"
error rolls back, sleeps, and retries; any other storage error rolls back and
re-raises immediately.  When the fuel runs out the contention exception is
raised. -/
def scanAttempts (outs : Nat → AttemptOutcome) (rc : Nat) (store : List Row)
    (raw : String) : Nat → Nat → ScanRun
  | _, 0 => ⟨.contention, store, 0, 0, [], []⟩
  | i, fuel + 1 =>
    match outs i with
    | .success =>
      let core := addOrUpdateCore store raw
      ⟨.done core.action, core.store, 0, 1,
        [⟨core.action, pyStrip raw, resolveName (pyStrip raw), core.item.quantity⟩],
        publishLogs rc⟩
    | .locked =>
      let r := scanAttempts outs rc store raw (i + 1) fuel
      ⟨r.outcome, r.store, r.sleeps + 1, r.attempts + 1, r.events, r.logs⟩
    | .dbError => ⟨.persistence, store, 0, 1, [], []⟩

/-- Full `add_or_update_inventory` (lines 835-922): internal-command sentinel
check on the raw input, then the retry loop with `retry_count` attempts.
`outs` gives each attempt's storage outcome and `rc` the MQTT publish
return code. -/
def apply_scan_full (outs : Nat → AttemptOutcome) (rc : Nat) (store : List Row)
    (raw : String) : ScanRun :=
  if raw ∈ internalCommands then ⟨.done .skipped, store, 0, 0, [], []⟩
  else scanAttempts outs rc store raw 0 retry_count

/-- Result of the order-placement decrement step in `confirm_order`. -/
inductive DecResult where
  | ok (newQty : Int)
  | insufficient (available : Int)
  | notFound
deriving DecidableEq, Repr

/-- The per-item decrement of `confirm_order` (lines 720-728): fetch the
first row by product name; if its quantity is at least the ordered amount,
subtract it, otherwise report insufficient stock (no mutation); a missing
product reports not-found (no mutation). -/
def decrement : List Row → String → Int → DecResult × List Row
  | [], _, _ => (.notFound, [])
  | r :: rs, name, n =>
    if r.product_name == name then
      if n ≤ r.quantity then
        (.ok (r.quantity - n), { r with quantity := r.quantity - n } :: rs)
      else (.insufficient r.quantity, r :: rs)
    else
      ((decrement rs name n).1, r :: (decrement rs name n).2)

theorem updateFirst_no_match (p : Row → Bool) (f : Row → Row) :
    ∀ l : List Row, (∀ x ∈ l, p x = false) → updateFirst p f l = none := by
  intro l h
  induction l with
  | nil => rfl
  | cons r rs ih =>
    have hr := h r (by simp)
    simp [updateFirst, hr, ih fun x hx => h x (by simp [hx])]

theorem updateFirst_split (p : Row → Bool) (f : Row → Row) :
    ∀ (l1 : List Row) (r : Row) (l2 : List Row),
      (∀ x ∈ l1, p x = false) → p r = true →
      updateFirst p f (l1 ++ r :: l2) = some (l1 ++ f r :: l2, f r) := by
  intro l1
  induction l1 with
  | nil =>
    intro r l2 _ hr
    simp [updateFirst, hr]
  | cons a l1 ih =>
    intro r l2 h1 hr
    have ha := h1 a (by simp)
    simp [updateFirst, ha, ih r l2 (fun x hx => h1 x (by simp [hx])) hr]

theorem updateFirst_mem (p : Row → Bool) (f : Row → Row) :
    ∀ (l l' : List Row) (r' : Row), updateFirst p f l = some (l', r') →
      ∀ x ∈ l', x ∈ l ∨ ∃ y ∈ l, x = f y := by
  intro l
  induction l with
  | nil => intro l' r' h; simp [updateFirst] at h
  | cons a rs ih =>
    intro l' r' h x hx
    by_cases ha : p a = true
    · simp only [updateFirst, ha, if_true, Option.some.injEq, Prod.mk.injEq] at h
      rw [← h.1] at hx
      rcases List.mem_cons.mp hx with h1 | h1
      · exact Or.inr ⟨a, by simp, h1⟩
      · exact Or.inl (List.mem_cons_of_mem _ h1)
    · simp only [updateFirst, ha, if_false, Bool.false_eq_true] at h
      rcases Option.map_eq_some'.mp h with ⟨⟨l'', r''⟩, hu, heq⟩
      simp only [Prod.mk.injEq] at heq
      rw [← heq.1] at hx
      rcases List.mem_cons.mp hx with h1 | h1
      · exact Or.inl (by simp [h1])
      · rcases ih l'' r'' hu x h1 with h2 | ⟨y, hy, hxy⟩
        · exact Or.inl (List.mem_cons_of_mem _ h2)
        · exact Or.inr ⟨y, List.mem_cons_of_mem _ hy, hxy⟩

/-- C3: on every (trimmed, non-sentinel) scanned string the implemented key
extraction agrees with the specified casing (before-first-hyphen when length
≥ 14 with a hyphen, else first 11 characters when length ≥ 11, else first 6
characters or the whole string when shorter), the product name is the table
entry for that key defaulting to "Unknown", and resolution is a total
function (never raises). -/
theorem resolver_matches_spec (b : String) :
    extractKey b = extractKeySpec b ∧
    resolveName b = ((barcode_prefix_mapping.lookup (extractKeySpec b)).getD "Unknown") ∧
    (barcode_prefix_mapping.lookup (extractKey b) = none → resolveName b = "Unknown") := by
  have hkey : extractKey b = extractKeySpec b := by
    unfold extractKey extractKeySpec
    by_cases h1 : 14 ≤ b.data.length ∧ '-' ∈ b.data
    · rw [if_pos h1, if_pos h1]
    · rw [if_neg h1, if_neg h1]
      by_cases h2 : 11 ≤ b.data.length
      · rw [if_pos h2, if_pos h2]
      · rw [if_neg h2, if_neg h2]
        by_cases h3 : 6 ≤ b.data.length
        · rw [if_pos h3]
        · rw [if_neg h3, List.take_of_length_le (by omega)]
  refine ⟨hkey, by rw [resolveName, hkey], fun hnone => ?_⟩
  rw [resolveName, hnone]
  rfl

/-- C10: when the stripped scan exactly matches an existing row's stored
barcode (first such row), `add_or_update_inventory` returns `updated` and
changes only that row's quantity (incremented by 1); its barcode and product
name keep their stored values and every other row is unchanged. -/
theorem scan_barcode_match_increments_only (l1 l2 : List Row) (r : Row) (raw : String)
    (h0 : raw ∉ internalCommands)
    (h1 : ∀ x ∈ l1, x.barcode ≠ pyStrip raw)
    (h2 : r.barcode = pyStrip raw) :
    add_or_update_inventory (l1 ++ r :: l2) raw =
      (.updated, l1 ++ { r with quantity := r.quantity + 1 } :: l2) := by
  have hupd := updateFirst_split (fun x => x.barcode == pyStrip raw)
    (fun x => { x with quantity := x.quantity + 1 }) l1 r l2
    (fun x hx => beq_eq_false_iff_ne.mpr (h1 x hx)) (by simp [h2])
  simp [add_or_update_inventory, h0, addOrUpdateCore, hupd]

/-- C10 witness at a concrete store and scan. -/
theorem scan_barcode_match_increments_only_witness :
    add_or_update_inventory
        [⟨"210477", "Silver Rose", 7⟩, ⟨"110481", "Old Label", 3⟩, ⟨"110649", "#430", 2⟩]
        " 110481 " =
      (.updated,
        [⟨"210477", "Silver Rose", 7⟩, ⟨"110481", "Old Label", 4⟩, ⟨"110649", "#430", 2⟩]) := by
  have h := scan_barcode_match_increments_only
    [⟨"210477", "Silver Rose", 7⟩] [⟨"110649", "#430", 2⟩]
    ⟨"110481", "Old Label", 3⟩ " 110481 "
    (by decide) (by decide) (by decide)
  simpa using h

/-- C1: when no row stores the scanned (stripped) barcode but some row has
the resolved product name, the scan returns `updated`, that (first such)
row's barcode is overwritten with the new scan, its quantity increments by
exactly 1, and the row count is unchanged (no new row). -/
theorem scan_name_fallback_overwrites_barcode (l1 l2 : List Row) (r : Row) (raw : String)
    (h0 : raw ∉ internalCommands)
    (hbar : ∀ x ∈ l1 ++ r :: l2, x.barcode ≠ pyStrip raw)
    (hl1 : ∀ x ∈ l1, x.product_name ≠ resolveName (pyStrip raw))
    (hr : r.product_name = resolveName (pyStrip raw)) :
    add_or_update_inventory (l1 ++ r :: l2) raw =
      (.updated,
        l1 ++ { r with quantity := r.quantity + 1, barcode := pyStrip raw } :: l2) ∧
    (add_or_update_inventory (l1 ++ r :: l2) raw).2.length = (l1 ++ r :: l2).length := by
  have hnone := updateFirst_no_match (fun x => x.barcode == pyStrip raw)
    (fun x => { x with quantity := x.quantity + 1 }) (l1 ++ r :: l2)
    (fun x hx => beq_eq_false_iff_ne.mpr (hbar x hx))
  have hupd := updateFirst_split (fun x => x.product_name == resolveName (pyStrip raw))
    (fun x => { x with quantity := x.quantity + 1, barcode := pyStrip raw }) l1 r l2
    (fun x hx => beq_eq_false_iff_ne.mpr (hl1 x hx)) (by simp [hr])
  have hmain : add_or_update_inventory (l1 ++ r :: l2) raw =
      (.updated,
        l1 ++ { r with quantity := r.quantity + 1, barcode := pyStrip raw } :: l2) := by
    simp [add_or_update_inventory, h0, addOrUpdateCore, hnone, hupd]
  exact ⟨hmain, by rw [hmain]; simp⟩

/-- C1 witness: scanning a fresh barcode for a product already stored under a
different barcode merges into that row. -/
theorem scan_name_fallback_overwrites_barcode_witness :
    add_or_update_inventory [⟨"110481", "Brighton Natural", 4⟩] "11048177" =
      (.updated, [⟨"11048177", "Brighton Natural", 5⟩]) ∧
    (add_or_update_inventory [⟨"110481", "Brighton Natural", 4⟩] "11048177").2.length = 1 := by
  have h := scan_name_fallback_overwrites_barcode [] []
    ⟨"110481", "Brighton Natural", 4⟩ "11048177"
    (by decide) (by decide) (by decide) (by decide)
  exact ⟨by simpa using h.1, by simpa using h.2⟩

/-- C2: scanning a never-seen barcode (no row with that stripped barcode and
none with its resolved product name) twice: first call returns `added` with
the new row at quantity 1, second call returns `updated` with quantity 2. -/
theorem scan_twice_new_barcode (store : List Row) (raw : String)
    (h0 : raw ∉ internalCommands)
    (h1 : ∀ x ∈ store, x.barcode ≠ pyStrip raw)
    (h2 : ∀ x ∈ store, x.product_name ≠ resolveName (pyStrip raw)) :
    add_or_update_inventory store raw =
      (.added, store ++ [⟨pyStrip raw, resolveName (pyStrip raw), 1⟩]) ∧
    add_or_update_inventory (store ++ [⟨pyStrip raw, resolveName (pyStrip raw), 1⟩]) raw =
      (.updated, store ++ [⟨pyStrip raw, resolveName (pyStrip raw), 2⟩]) := by
  constructor
  · have hb := updateFirst_no_match (fun x => x.barcode == pyStrip raw)
      (fun x => { x with quantity := x.quantity + 1 }) store
      (fun x hx => beq_eq_false_iff_ne.mpr (h1 x hx))
    have hn := updateFirst_no_match (fun x => x.product_name == resolveName (pyStrip raw))
      (fun x => { x with quantity := x.quantity + 1, barcode := pyStrip raw }) store
      (fun x hx => beq_eq_false_iff_ne.mpr (h2 x hx))
    simp [add_or_update_inventory, h0, addOrUpdateCore, hb, hn]
  · have hb := updateFirst_split (fun x => x.barcode == pyStrip raw)
      (fun x => { x with quantity := x.quantity + 1 }) store
      ⟨pyStrip raw, resolveName (pyStrip raw), 1⟩ []
      (fun x hx => beq_eq_false_iff_ne.mpr (h1 x hx)) (by simp)
    simp [add_or_update_inventory, h0, addOrUpdateCore, hb]

/-- C2 witness on the empty store with the Brighton Natural legacy code. -/
theorem scan_twice_new_barcode_witness :
    add_or_update_inventory [] "110481" =
      (.added, [⟨"110481", "Brighton Natural", 1⟩]) ∧
    add_or_update_inventory [⟨"110481", "Brighton Natural", 1⟩] "110481" =
      (.updated, [⟨"110481", "Brighton Natural", 2⟩]) := by
  have h := scan_twice_new_barcode [] "110481" (by decide) (by decide) (by decide)
  exact ⟨by simpa using h.1, by simpa using h.2⟩

/-- C7: the order-placement decrement rejects with `InsufficientStock` and
mutates nothing when the ordered amount exceeds the (first matching) row's
quantity; otherwise it subtracts the amount from that row only. -/
theorem decrement_guard (l1 l2 : List Row) (r : Row) (name : String) (n : Int)
    (hl1 : ∀ x ∈ l1, x.product_name ≠ name)
    (hr : r.product_name = name) :
    (r.quantity < n →
      decrement (l1 ++ r :: l2) name n = (.insufficient r.quantity, l1 ++ r :: l2)) ∧
    (n ≤ r.quantity →
      decrement (l1 ++ r :: l2) name n =
        (.ok (r.quantity - n), l1 ++ { r with quantity := r.quantity - n } :: l2)) := by
  induction l1 with
  | nil =>
    constructor
    · intro hlt
      simp [decrement, hr, show ¬n ≤ r.quantity by omega]
    · intro hle
      simp [decrement, hr, hle]
  | cons a l1 ih =>
    have ha : (a.product_name == name) = false :=
      beq_eq_false_iff_ne.mpr (hl1 a (by simp))
    have ih' := ih fun x hx => hl1 x (by simp [hx])
    constructor
    · intro hlt
      simp [decrement, ha, ih'.1 hlt]
    · intro hle
      simp [decrement, ha, ih'.2 hle]

/-- C7 witness: ordering 5 of a product with quantity 3 is rejected without
mutation; ordering 2 of it subtracts exactly 2 from that row only. -/
theorem decrement_guard_witness :
    decrement [⟨"210654", "Roseboro", 2⟩, ⟨"110128", "Masterpiece", 3⟩] "Masterpiece" 5 =
      (.insufficient 3, [⟨"210654", "Roseboro", 2⟩, ⟨"110128", "Masterpiece", 3⟩]) ∧
    decrement [⟨"210654", "Roseboro", 2⟩, ⟨"110128", "Masterpiece", 3⟩] "Masterpiece" 2 =
      (.ok 1, [⟨"210654", "Roseboro", 2⟩, ⟨"110128", "Masterpiece", 1⟩]) := by
  have h5 := decrement_guard [⟨"210654", "Roseboro", 2⟩] []
    ⟨"110128", "Masterpiece", 3⟩ "Masterpiece" 5 (by decide) (by decide)
  have h2 := decrement_guard [⟨"210654", "Roseboro", 2⟩] []
    ⟨"110128", "Masterpiece", 3⟩ "Masterpiece" 2 (by decide) (by decide)
  exact ⟨by simpa using h5.1 (by decide), by simpa using h2.2 (by decide)⟩

theorem addOrUpdateCore_store_mem (store : List Row) (raw : String) :
    ∀ x ∈ (addOrUpdateCore store raw).store,
      x ∈ store ∨ (∃ y ∈ store, x.quantity = y.quantity + 1) ∨ x.quantity = 1 := by
  intro x hx
  simp only [addOrUpdateCore] at hx
  cases h1 : updateFirst (fun r => r.barcode == pyStrip raw)
      (fun r => { r with quantity := r.quantity + 1 }) store with
  | some val =>
    obtain ⟨store', item⟩ := val
    simp only [h1] at hx
    rcases updateFirst_mem _ _ store store' item h1 x hx with hmem | ⟨y, hy, hxy⟩
    · exact Or.inl hmem
    · exact Or.inr (Or.inl ⟨y, hy, by rw [hxy]⟩)
  | none =>
    simp only [h1] at hx
    cases h2 : updateFirst (fun r => r.product_name == resolveName (pyStrip raw))
        (fun r => { r with quantity := r.quantity + 1, barcode := pyStrip raw }) store with
    | some val =>
      obtain ⟨store', item⟩ := val
      simp only [h2] at hx
      rcases updateFirst_mem _ _ store store' item h2 x hx with hmem | ⟨y, hy, hxy⟩
      · exact Or.inl hmem
      · exact Or.inr (Or.inl ⟨y, hy, by rw [hxy]⟩)
    | none =>
      simp only [h2, List.mem_append, List.mem_singleton] at hx
      rcases hx with hmem | hx
      · exact Or.inl hmem
      · exact Or.inr (Or.inr (by rw [hx]))

theorem decrement_store_mem (name : String) (n : Int) :
    ∀ store : List Row, ∀ x ∈ (decrement store name n).2,
      x ∈ store ∨ ∃ y ∈ store, x.quantity = y.quantity - n ∧ n ≤ y.quantity := by
  intro store
  induction store with
  | nil => intro x hx; simp [decrement] at hx
  | cons a rs ih =>
    intro x hx
    by_cases ha : (a.product_name == name) = true
    · by_cases hn : n ≤ a.quantity
      · simp only [decrement, ha, if_true, hn, if_pos, List.mem_cons] at hx
        rcases hx with hx | hx
        · exact Or.inr ⟨a, by simp, by rw [hx], hn⟩
        · exact Or.inl (List.mem_cons_of_mem _ hx)
      · simp only [decrement, ha, if_true, hn, if_false, List.mem_cons] at hx
        rcases hx with hx | hx
        · exact Or.inl (by simp [hx])
        · exact Or.inl (List.mem_cons_of_mem _ hx)
    · simp only [decrement, ha, if_false, Bool.false_eq_true, List.mem_cons] at hx
      rcases hx with hx | hx
      · exact Or.inl (by simp [hx])
      · rcases ih x hx with hmem | ⟨y, hy, hq⟩
        · exact Or.inl (List.mem_cons_of_mem _ hmem)
        · exact Or.inr ⟨y, List.mem_cons_of_mem _ hy, hq⟩

/-- C8: non-negativity of every row quantity is an invariant: it is
preserved by the scan operation (insert at 1 or increment by 1) and by the
order-placement decrement (guarded subtraction). -/
theorem quantity_nonneg_invariant (store : List Row) (raw name : String) (n : Int)
    (h : ∀ x ∈ store, 0 ≤ x.quantity) :
    (∀ x ∈ (add_or_update_inventory store raw).2, 0 ≤ x.quantity) ∧
    (∀ x ∈ (decrement store name n).2, 0 ≤ x.quantity) := by
  constructor
  · intro x hx
    rw [add_or_update_inventory] at hx
    by_cases hs : raw ∈ internalCommands
    · rw [if_pos hs] at hx
      exact h x hx
    · rw [if_neg hs] at hx
      rcases addOrUpdateCore_store_mem store raw x hx with hmem | ⟨y, hy, hq⟩ | hq
      · exact h x hmem
      · have := h y hy
        omega
      · omega
  · intro x hx
    rcases decrement_store_mem name n store x hx with hmem | ⟨y, hy, hq, hn⟩
    · exact h x hmem
    · omega

/-- C8 witness: after a scan doubling down on an existing barcode and an
order consuming all remaining Roseboro stock, the touched rows stay ≥ 0. -/
theorem quantity_nonneg_invariant_witness :
    0 ≤ ((add_or_update_inventory
        [⟨"110649", "#430", 0⟩, ⟨"210654", "Roseboro", 2⟩] "110649").2.headD
          ⟨"", "", -1⟩).quantity ∧
    0 ≤ ((decrement [⟨"110649", "#430", 0⟩, ⟨"210654", "Roseboro", 2⟩] "Roseboro" 2).2.getD 1
          ⟨"", "", -1⟩).quantity := by
  have h := quantity_nonneg_invariant
    [⟨"110649", "#430", 0⟩, ⟨"210654", "Roseboro", 2⟩] "110649" "Roseboro" 2 (by decide)
  exact ⟨h.1 _ (by decide), h.2 _ (by decide)⟩

theorem scanAttempts_all_locked (outs : Nat → AttemptOutcome) (rc : Nat)
    (store : List Row) (raw : String) :
    ∀ fuel i : Nat, (∀ k, k < fuel → outs (i + k) = .locked) →
      scanAttempts outs rc store raw i fuel = ⟨.contention, store, fuel, fuel, [], []⟩ := by
  intro fuel
  induction fuel with
  | zero => intro i _; rfl
  | succ fuel ih =>
    intro i h
    have h0 : outs i = .locked := by simpa using h 0 (Nat.succ_pos _)
    have hrest : ∀ k, k < fuel → outs (i + 1 + k) = .locked := fun k hk => by
      simpa [show i + 1 + k = i + (k + 1) by omega] using h (k + 1) (by omega)
    simp [scanAttempts, h0, ih (i + 1) hrest]

theorem scanAttempts_first_dbError (outs : Nat → AttemptOutcome) (rc : Nat)
    (store : List Row) (raw : String) :
    ∀ j fuel i : Nat, j < fuel → (∀ k, k < j → outs (i + k) = .locked) →
      outs (i + j) = .dbError →
      scanAttempts outs rc store raw i fuel = ⟨.persistence, store, j, j + 1, [], []⟩ := by
  intro j
  induction j with
  | zero =>
    intro fuel i hlt _ hj
    obtain ⟨fuel', rfl⟩ : ∃ f, fuel = f + 1 := ⟨fuel - 1, by omega⟩
    have h0 : outs i = .dbError := by simpa using hj
    simp [scanAttempts, h0]
  | succ j ih =>
    intro fuel i hlt hlk hj
    obtain ⟨fuel', rfl⟩ : ∃ f, fuel = f + 1 := ⟨fuel - 1, by omega⟩
    have h0 : outs i = .locked := by simpa using hlk 0 (by omega)
    have hrest : ∀ k, k < j → outs (i + 1 + k) = .locked := fun k hk => by
      simpa [show i + 1 + k = i + (k + 1) by omega] using hlk (k + 1) (by omega)
    have hj' : outs (i + 1 + j) = .dbError := by
      simpa [show i + 1 + j = i + (j + 1) by omega] using hj
    simp [scanAttempts, h0, ih fuel' (i + 1) (by omega) hrest hj']

theorem scanAttempts_first_success (outs : Nat → AttemptOutcome) (rc : Nat)
    (store : List Row) (raw : String) :
    ∀ j fuel i : Nat, j < fuel → (∀ k, k < j → outs (i + k) = .locked) →
      outs (i + j) = .success →
      scanAttempts outs rc store raw i fuel =
        ⟨.done (addOrUpdateCore store raw).action, (addOrUpdateCore store raw).store,
          j, j + 1,
          [⟨(addOrUpdateCore store raw).action, pyStrip raw, resolveName (pyStrip raw),
            (addOrUpdateCore store raw).item.quantity⟩],
          publishLogs rc⟩ := by
  intro j
  induction j with
  | zero =>
    intro fuel i hlt _ hj
    obtain ⟨fuel', rfl⟩ : ∃ f, fuel = f + 1 := ⟨fuel - 1, by omega⟩
    have h0 : outs i = .success := by simpa using hj
    simp [scanAttempts, h0]
  | succ j ih =>
    intro fuel i hlt hlk hj
    obtain ⟨fuel', rfl⟩ : ∃ f, fuel = f + 1 := ⟨fuel - 1, by omega⟩
    have h0 : outs i = .locked := by simpa using hlk 0 (by omega)
    have hrest : ∀ k, k < j → outs (i + 1 + k) = .locked := fun k hk => by
      simpa [show i + 1 + k = i + (k + 1) by omega] using hlk (k + 1) (by omega)
    have hj' : outs (i + 1 + j) = .success := by
      simpa [show i + 1 + j = i + (j + 1) by omega] using hj
    simp [scanAttempts, h0, ih fuel' (i + 1) (by omega) hrest hj']

theorem scanAttempts_contention_iff (outs : Nat → AttemptOutcome) (rc : Nat)
    (store : List Row) (raw : String) :
    ∀ fuel i : Nat,
      (scanAttempts outs rc store raw i fuel).outcome = .contention ↔
        ∀ k, k < fuel → outs (i + k) = .locked := by
  intro fuel
  induction fuel with
  | zero =>
    intro i
    simp [scanAttempts]
  | succ fuel ih =>
    intro i
    cases h : outs i with
    | success =>
      simp only [scanAttempts, h]
      constructor
      · intro hc
        exact absurd hc (by simp)
      · intro hall
        have := hall 0 (by omega)
        simp [h] at this
    | locked =>
      simp only [scanAttempts, h]
      rw [ih (i + 1)]
      constructor
      · intro hall k hk
        match k with
        | 0 => simpa using h
        | k + 1 =>
          simpa [show i + (k + 1) = i + 1 + k by omega] using hall k (by omega)
      · intro hall k hk
        simpa [show i + 1 + k = i + (k + 1) by omega] using hall (k + 1) (by omega)
    | dbError =>
      simp only [scanAttempts, h]
      constructor
      · intro hc
        exact absurd hc (by simp)
      · intro hall
        have := hall 0 (by omega)
        simp [h] at this

/-- C5: when every one of the `retry_count` (5) attempts reports
"database is locked", the call raises the contention exception only after
all attempts, sleeping the fixed back-off (one `retryDelayMs` sleep per
locked attempt, 5 in total); when any attempt reports a different storage
error after some locked ones, the call raises immediately after that attempt
with no further attempt; and the contention error occurs only when every
attempt was locked. -/
theorem retry_contention_policy (outs : Nat → AttemptOutcome) (rc : Nat)
    (store : List Row) (raw : String)
    (h0 : raw ∉ internalCommands) :
    ((∀ i, i < retry_count → outs i = .locked) →
      apply_scan_full outs rc store raw =
        ⟨.contention, store, retry_count, retry_count, [], []⟩) ∧
    (∀ j, j < retry_count → (∀ i, i < j → outs i = .locked) → outs j = .dbError →
      apply_scan_full outs rc store raw = ⟨.persistence, store, j, j + 1, [], []⟩) ∧
    ((apply_scan_full outs rc store raw).outcome = .contention →
      ∀ i, i < retry_count → outs i = .locked) := by
  refine ⟨?_, ?_, ?_⟩
  · intro h
    rw [apply_scan_full, if_neg h0]
    exact scanAttempts_all_locked outs rc store raw retry_count 0
      fun k hk => by simpa using h k hk
  · intro j hj hlk hdb
    rw [apply_scan_full, if_neg h0]
    exact scanAttempts_first_dbError outs rc store raw j retry_count 0 hj
      (fun k hk => by simpa using hlk k hk) (by simpa using hdb)
  · rw [apply_scan_full, if_neg h0]
    intro hc i hi
    simpa using (scanAttempts_contention_iff outs rc store raw retry_count 0).mp hc i hi

/-- C5 witness: an always-locked storage exhausts all 5 attempts into the
contention error with 5 back-off sleeps; a storage that fails with a
non-lock error on the first attempt raises immediately after 1 attempt. -/
theorem retry_contention_policy_witness :
    apply_scan_full (fun _ => .locked) 0 [] "110481" =
      ⟨.contention, [], 5, 5, [], []⟩ ∧
    apply_scan_full (fun i => if i = 0 then .dbError else .locked) 0 [] "110481" =
      ⟨.persistence, [], 0, 1, [], []⟩ := by
  constructor
  · exact (retry_contention_policy (fun _ => .locked) 0 [] "110481" (by decide)).1
      fun i _ => rfl
  · exact (retry_contention_policy (fun i => if i = 0 then .dbError else .locked) 0 []
      "110481" (by decide)).2.1 0 (by decide) (fun i hi => absurd hi (by omega)) rfl

theorem scanAttempts_store_cases (outs : Nat → AttemptOutcome) (rc : Nat)
    (store : List Row) (raw : String) :
    ∀ fuel i : Nat,
      (scanAttempts outs rc store raw i fuel).store = store ∨
      (scanAttempts outs rc store raw i fuel).store = (addOrUpdateCore store raw).store := by
  intro fuel
  induction fuel with
  | zero => intro i; exact Or.inl rfl
  | succ fuel ih =>
    intro i
    cases h : outs i with
    | success => exact Or.inr (by simp [scanAttempts, h])
    | locked => simpa [scanAttempts, h] using ih (i + 1)
    | dbError => exact Or.inl (by simp [scanAttempts, h])

/-- C6: the persisted table after any call is all-or-nothing: either exactly
the table the call started from (every failed attempt is rolled back, and a
skipped scan touches nothing) or exactly the complete read-modify-write
mutation of a successful attempt; no partial write is ever visible. -/
theorem no_partial_writes (outs : Nat → AttemptOutcome) (rc : Nat)
    (store : List Row) (raw : String) :
    (apply_scan_full outs rc store raw).store = store ∨
    (apply_scan_full outs rc store raw).store = (addOrUpdateCore store raw).store := by
  rw [apply_scan_full]
  by_cases hs : raw ∈ internalCommands
  · rw [if_pos hs]
    exact Or.inl rfl
  · rw [if_neg hs]
    exact scanAttempts_store_cases outs rc store raw retry_count 0

theorem addOrUpdateCore_action_ne_skipped (store : List Row) (raw : String) :
    (addOrUpdateCore store raw).action ≠ .skipped := by
  simp only [addOrUpdateCore]
  cases h1 : updateFirst (fun r => r.barcode == pyStrip raw)
      (fun r => { r with quantity := r.quantity + 1 }) store with
  | some val =>
    obtain ⟨s, it⟩ := val
    simp [h1]
  | none =>
    simp only [h1]
    cases h2 : updateFirst (fun r => r.product_name == resolveName (pyStrip raw))
        (fun r => { r with quantity := r.quantity + 1, barcode := pyStrip raw }) store with
    | some val =>
      obtain ⟨s, it⟩ := val
      simp [h2]
    | none => simp [h2]

/-- C9: a failed MQTT publish after a successful commit is logged only: for
every publish return code the call returns the committed action (`added` or
`updated`, never `skipped`) and the committed table, and a non-zero return
code merely adds the error-log line. -/
theorem notify_failure_never_surfaces (outs : Nat → AttemptOutcome)
    (store : List Row) (raw : String) (j : Nat)
    (h0 : raw ∉ internalCommands)
    (hj : j < retry_count)
    (hlk : ∀ i, i < j → outs i = .locked)
    (hsucc : outs j = .success) :
    ∀ rc : Nat,
      (apply_scan_full outs rc store raw).outcome =
        .done (addOrUpdateCore store raw).action ∧
      (apply_scan_full outs rc store raw).store = (addOrUpdateCore store raw).store ∧
      (addOrUpdateCore store raw).action ≠ .skipped ∧
      (rc ≠ 0 →
        (apply_scan_full outs rc store raw).logs = ["Failed to publish MQTT message"]) := by
  intro rc
  have hrun := scanAttempts_first_success outs rc store raw j retry_count 0 hj
    (fun k hk => by simpa using hlk k hk) (by simpa using hsucc)
  rw [apply_scan_full, if_neg h0, hrun]
  refine ⟨rfl, rfl, addOrUpdateCore_action_ne_skipped store raw, fun hrc => ?_⟩
  simp [publishLogs, hrc]

/-- C9 witness: with a publish return code of 7 (failure) the scan still
returns `added`, and the failure shows up only in the log. -/
theorem notify_failure_never_surfaces_witness :
    (apply_scan_full (fun _ => .success) 7 [] "110481").outcome = .done .added ∧
    (apply_scan_full (fun _ => .success) 7 [] "110481").logs =
      ["Failed to publish MQTT message"] := by
  have h := notify_failure_never_surfaces (fun _ => .success) [] "110481" 0
    (by decide) (by decide) (fun i hi => absurd hi (by omega)) rfl 7
  exact ⟨h.1.trans (by decide), h.2.2.2 (by omega)⟩

/-- C4 counterexample: the input " Inventory Mode " (surrounding spaces)
trims to an internal command string, yet the call does not skip: it mutates
the table and publishes a notification, because the code compares the raw
input against the command list before stripping. -/
theorem sentinel_check_pretrim_counterexample :
    pyStrip " Inventory Mode " ∈ internalCommands ∧
    (apply_scan_full (fun _ => .success) 0 [] " Inventory Mode ").outcome ≠
      ScanOutcome.done .skipped ∧
    (apply_scan_full (fun _ => .success) 0 [] " Inventory Mode ").store ≠ [] ∧
    (apply_scan_full (fun _ => .success) 0 [] " Inventory Mode ").events ≠ [] := by
  refine ⟨by decide, by decide, by decide, by decide⟩

/-- C4 (amended): for every raw input that exactly equals one of the
internal device command strings (the comparison happens before any
trimming), the call returns `skipped`, mutates nothing, and emits no
notification and no log. -/
theorem sentinel_exact_match_skips (outs : Nat → AttemptOutcome) (rc : Nat)
    (store : List Row) (raw : String)
    (h : raw ∈ internalCommands) :
    apply_scan_full outs rc store raw = ⟨.done .skipped, store, 0, 0, [], []⟩ := by
  rw [apply_scan_full, if_pos h]

/-- C4 witness on the exact command string "Exit and Save". -/
theorem sentinel_exact_match_skips_witness :
    apply_scan_full (fun _ => .success) 0 [⟨"110481", "Brighton Natural", 1⟩]
        "Exit and Save" =
      ⟨.done .skipped, [⟨"110481", "Brighton Natural", 1⟩], 0, 0, [], []⟩ :=
  sentinel_exact_match_skips (fun _ => .success) 0 [⟨"110481", "Brighton Natural", 1⟩]
    "Exit and Save" (by decide)

end Inventory
